import Mathlib

/-!
Shallow embedding of the `infiniverse` EOSIO contract
(`src/infiniverse/src/infiniverse.cpp`).

Modelling conventions:
* EOSIO account names (`eosio::name`, a `uint64_t`) are modelled as `Nat`.
* `double` arithmetic is idealised as exact rational arithmetic (`ℚ`).
* Each multi_index table is a list of rows; a secondary index is modelled
  as the set of rows satisfying the index-key range (the index contains
  every row of the table, so an index range scan visits exactly the rows
  whose key lies in the range).
* `eosio_assert(cond, msg)` aborts the running action.  Every action is a
  function `... → State → Except (String × State) State`; an abort returns
  `.error (msg, s)` where `s` is the state at the moment of the abort,
  i.e. including any table writes already performed by the action body.
  The EOSIO runtime would roll these back; carrying them in the error lets
  us prove which aborts can observe partial writes.
* `require_auth(n)` is modelled through a parameter `auth : Nat → Bool`
  giving the set of accounts whose authority the transaction carries.
* The outgoing inline `transfer` actions (`transfer_inf`) are recorded in
  an `outbox` list; all transfers sent by this contract carry the INF
  symbol, so only the amount, accounts and memo are recorded.
-/

/-- The eosio `vector3` struct (declared in the missing header, used for
position, orientation and scale of a placement). -/
structure vector3 where
  x : ℚ
  y : ℚ
  z : ℚ
deriving DecidableEq, Repr

/-- Row of `land_table` (`land` rows: id, owner, four edges, registration
end date).  `reg_end_date` is a `time_point_sec`, modelled as `Nat`. -/
structure Land where
  id : Nat
  owner : Nat
  lat_north_edge : ℚ
  long_east_edge : ℚ
  lat_south_edge : ℚ
  long_west_edge : ℚ
  reg_end_date : Nat
deriving DecidableEq, Repr

/-- Row of `deposit_table`: owner and INF balance.  The balance is an
`eosio::asset` whose symbol is always `inf_symbol`; we keep its `amount`
(an `int64_t` count of 10^-4 INF units) as `ℤ`. -/
structure Deposit where
  owner : Nat
  balance : ℤ
deriving DecidableEq, Repr

/-- Row of `persistent_table`: a placement record. -/
structure Persistent where
  id : Nat
  land_id : Nat
  source_and_asset_id : Nat
  position : vector3
  orientation : vector3
  scale : vector3
deriving DecidableEq, Repr

/-- Row of `poly_table`: a deduplicated external (Poly) asset record. -/
structure PolyRow where
  id : Nat
  user : Nat
  poly_id : String
deriving DecidableEq, Repr

/-- An outgoing `transfer` inline action sent through `transfer_inf`.
All transfers sent by the contract carry the INF symbol. -/
structure Transfer where
  from_acct : Nat
  to_acct : Nat
  amount : ℤ
  memo : String
deriving DecidableEq, Repr

/-- The contract state: the four tables plus the outbox of inline
transfer actions sent during execution. -/
structure State where
  lands : List Land
  deposits : List Deposit
  persistents : List Persistent
  polys : List PolyRow
  outbox : List Transfer
deriving DecidableEq, Repr

/-- The empty initial state of a fresh deployment. -/
def initialState : State :=
  { lands := [], deposits := [], persistents := [], polys := [], outbox := [] }

/-- Constant from the source: `seconds_in_one_year = 60 * 60 * 24 * 365`. -/
def seconds_in_one_year : Nat := 60 * 60 * 24 * 365

/-- Constant from the source: `max_land_length = 100` (meters). -/
def max_land_length : Nat := 100

/-- Constant from the source: `inf_per_sqm = 10` (INF per square meter). -/
def inf_per_sqm : Nat := 10

/-- The contract's own account (`_self`), an arbitrary fixed name. -/
def self_account : Nat := 1

/-- The token issuing account `inf_account = "infinicoinio"`, distinct
from the contract account. -/
def inf_account : Nat := 2

/-- Symbols are abstract codes; `inf_symbol = symbol("INF", 4)` is one
fixed code. -/
def inf_symbol : Nat := 0

/-- An `eosio::asset`: an `int64_t` amount together with a symbol code. -/
structure asset where
  amount : ℤ
  sym : Nat
deriving DecidableEq, Repr

/-- Modelled from the spec: `asset::is_valid` checks that the amount is
within the representable range (|amount| ≤ 2^62 - 1) and that the symbol
is well formed; symbol well-formedness is vacuous for our abstract symbol
codes.  (`eosiolib`, not part of src.) -/
def asset.is_valid (a : asset) : Bool :=
  decide (-(2 ^ 62 - 1) ≤ a.amount) && decide (a.amount ≤ 2 ^ 62 - 1)

/-- The enum value `PlacementSource::POLY`.  Modelled from the spec: the
header declaring `enum class PlacementSource` is not in src; the spec only
requires a small tag, so we fix the first enumerator value. -/
def poly_source : Nat := 0

/-- Packing of `persistpoly`: `(uint128_t) source << 64 | asset_id`.
Asset ids are `uint64_t`, hence the `% 2^64` on the low word. -/
def composite_key (source asset_id : Nat) : Nat :=
  source * 2 ^ 64 + asset_id % 2 ^ 64

/-- Modelled from the spec: `lat_long_functions.cpp` is not in src.  The
degrees-to-meters conversion is "constant for latitude" and
"latitude-dependent for longitude"; the constant and the longitude
function are parameters of the model. -/
structure GeoConv where
  metersPerLatDeg : ℚ
  longMetersFn : ℚ → ℚ → ℚ → ℚ → ℚ

/-- Modelled from the spec: `lat_long_to_meters(n, s, e, w)` returns the
pair (north-south extent in meters, east-west extent in meters); the
north-south extent is the latitude span times the constant meters per
degree of latitude. -/
def lat_long_to_meters (c : GeoConv) (n s e w : ℚ) : ℚ × ℚ :=
  (c.metersPerLatDeg * (n - s), c.longMetersFn n s e w)

/-- Modelled from the spec: `meters_to_lat_dist(m)` converts a distance in
meters into a span of latitude degrees — the inverse of the constant
latitude conversion. -/
def meters_to_lat_dist (c : GeoConv) (m : ℚ) : ℚ :=
  m / c.metersPerLatDeg

/-- `available_primary_key()` of a multi_index table: `0` when the table
is empty, otherwise one more than the largest primary key. -/
def available_primary_key (ids : List Nat) : Nat :=
  match ids with
  | [] => 0
  | _ => ids.foldr Nat.max 0 + 1

/-- Helper: `table.modify(itr, ...)` where `itr` was obtained from a
primary-key `find` — update the first row matching `p` with `f`. -/
def modify_first {α : Type} (p : α → Bool) (f : α → α) : List α → List α
  | [] => []
  | a :: l => if p a then f a :: l else a :: modify_first p f l

/-- Helper: `table.erase(itr)` where `itr` was obtained from a `find` —
remove the first row matching `p`. -/
def erase_first {α : Type} (p : α → Bool) : List α → List α
  | [] => []
  | a :: l => if p a then l else a :: erase_first p l

/-- The four-way non-intersection disjunction tested by the overlap scan
of `registerland` against one existing land row. -/
def scan_disjuncts (l : Land) (lat_north_edge long_east_edge lat_south_edge long_west_edge : ℚ) :
    Bool :=
  decide (l.long_east_edge ≤ long_west_edge) ||
  decide (l.long_west_edge ≥ long_east_edge) ||
  decide (l.lat_south_edge ≥ lat_north_edge) ||
  decide (l.lat_north_edge ≤ lat_south_edge)

/-- The window of the overlap scan: `lower_bound(lat_south_edge)` on the
`bylatnorth` index followed by a forward scan while
`lat_north_edge < upper_bound` — exactly the rows whose `lat_north_edge`
lies in `[lat_south_edge, upper_bound)`. -/
def scan_window (lands : List Land) (lat_south_edge upper_bound : ℚ) : List Land :=
  lands.filter fun l =>
    decide (lat_south_edge ≤ l.lat_north_edge) && decide (l.lat_north_edge < upper_bound)

/-- The action `registerland`.  `auth` is the set of authorities carried
by the transaction, `now` the current time in seconds. -/
def registerland (c : GeoConv) (auth : Nat → Bool) (now : Nat) (owner : Nat)
    (lat_north_edge long_east_edge lat_south_edge long_west_edge : ℚ)
    (st : State) : Except (String × State) State :=
  if ¬ auth owner then .error ("missing authority", st) else
  if ¬ (lat_north_edge > lat_south_edge) then
    .error ("North edge must have greater latitude than south edge", st) else
  if ¬ (long_east_edge > long_west_edge) then
    .error ("East edge must have greater longitude than west edge", st) else
  if ¬ (lat_north_edge < 85) then
    .error ("Latitude cannot be greater than 85 degrees", st) else
  if ¬ (lat_south_edge > -85) then
    .error ("Latitude cannot be less than -85 degrees", st) else
  if ¬ (long_east_edge ≤ 180 ∧ long_east_edge > -180 ∧ long_west_edge ≤ 180 ∧
      long_west_edge > -180) then
    .error ("Longitude must be between -180 and 180 degrees", st) else
  let land_size := lat_long_to_meters c lat_north_edge lat_south_edge
      long_east_edge long_west_edge
  if ¬ (land_size.1 ≤ (max_land_length : ℚ) ∧ land_size.2 ≤ (max_land_length : ℚ)) then
    .error ("Land cannot exceed a length of 100 meters on either side", st) else
  let upper_bound := lat_north_edge + meters_to_lat_dist c (max_land_length : ℚ)
  if (scan_window st.lands lat_south_edge upper_bound).any
      (fun l => ¬ scan_disjuncts l lat_north_edge long_east_edge
        lat_south_edge long_west_edge) then
    .error ("Intersecting land has already been registered", st) else
  let land_area := max land_size.1 1 * max land_size.2 1
  let reg_fee : ℤ := round (land_area * (inf_per_sqm : ℚ))
  let inf_amount : ℤ := reg_fee * 10000
  match st.deposits.find? (fun d => d.owner == owner) with
  | none => .error ("User does not have a deposit opened", st)
  | some dep =>
    if ¬ (dep.balance ≥ inf_amount) then
      .error ("User\x27s INF deposit balance is too low", st) else
    let deposits1 := modify_first (fun d => d.owner == owner)
      (fun d => { d with balance := d.balance - inf_amount }) st.deposits
    let st1 := { st with deposits := deposits1 }
    let fee_transfer : Transfer :=
      { from_acct := self_account, to_acct := inf_account,
        amount := inf_amount, memo := "" }
    let st2 := { st1 with outbox := st1.outbox ++ [fee_transfer] }
    let new_land : Land :=
      { id := available_primary_key (st2.lands.map Land.id),
        owner := owner,
        lat_north_edge := lat_north_edge,
        long_east_edge := long_east_edge,
        lat_south_edge := lat_south_edge,
        long_west_edge := long_west_edge,
        reg_end_date := now + seconds_in_one_year }
    .ok { st2 with lands := st2.lands ++ [new_land] }

/-- The helper `assert_vectors_within_bounds`, returning the first failing
assertion message, if any. -/
def assert_vectors_within_bounds (position orientation scale : vector3) :
    Except String Unit :=
  if ¬ (position.x > 0 ∧ position.y = 0 ∧ position.z > 0 ∧
      position.x < 1 ∧ position.z < 1) then
    .error "Asset position is not within land bounds" else
  if ¬ (orientation.x ≥ 0 ∧ orientation.x < 360 ∧ orientation.y ≥ 0 ∧
      orientation.y < 360 ∧ orientation.z ≥ 0 ∧ orientation.z < 360) then
    .error "Asset orientation must be within 0 and 360" else
  if ¬ (scale.x ≥ 1/5 ∧ scale.y ≥ 1/5 ∧ scale.z ≥ 1/5) then
    .error "Asset scale must be at least 0.2" else
  .ok ()

/-- The helper `require_land_owner_auth`: find the land, fail if absent,
require the owner's authority, return the owner. -/
def require_land_owner_auth (auth : Nat → Bool) (land_id : Nat) (st : State) :
    Except String Nat :=
  match st.lands.find? (fun l => l.id == land_id) with
  | none => .error "Land Id does not exist"
  | some l =>
    if ¬ auth l.owner then .error "missing authority" else .ok l.owner

/-- The helper `add_poly`: require the user's authority, validate the Poly
id, return the id of an existing row of this user with the same `poly_id`
(the `byuser` index scan), or create a fresh row. -/
def add_poly (auth : Nat → Bool) (user : Nat) (poly_id : String)
    (polys : List PolyRow) : Except String (Nat × List PolyRow) :=
  if ¬ auth user then .error "missing authority" else
  if ¬ (poly_id.length = 11) then .error "Poly Id format is invalid" else
  match polys.find? (fun p => p.user == user && p.poly_id == poly_id) with
  | some p => .ok (p.id, polys)
  | none =>
    let new_id := available_primary_key (polys.map PolyRow.id)
    .ok (new_id, polys ++ [{ id := new_id, user := user, poly_id := poly_id }])

/-- The action `persistpoly`. -/
def persistpoly (auth : Nat → Bool) (land_id : Nat) (poly_id : String)
    (position orientation scale : vector3) (st : State) :
    Except (String × State) State :=
  match require_land_owner_auth auth land_id st with
  | .error m => .error (m, st)
  | .ok user =>
  match assert_vectors_within_bounds position orientation scale with
  | .error m => .error (m, st)
  | .ok _ =>
  match add_poly auth user poly_id st.polys with
  | .error m => .error (m, st)
  | .ok (asset_id, polys1) =>
    let source_and_asset_id := composite_key poly_source asset_id
    let st1 := { st with polys := polys1 }
    let new_row : Persistent :=
      { id := available_primary_key (st1.persistents.map Persistent.id),
        land_id := land_id,
        source_and_asset_id := source_and_asset_id,
        position := position, orientation := orientation, scale := scale }
    .ok { st1 with persistents := st1.persistents ++ [new_row] }

/-- The action `updatepersis`. -/
def updatepersis (auth : Nat → Bool) (persistent_id land_id : Nat)
    (position orientation scale : vector3) (st : State) :
    Except (String × State) State :=
  match st.persistents.find? (fun q => q.id == persistent_id) with
  | none => .error ("Persistent Id does not exist", st)
  | some q =>
    let old_land_id := q.land_id
    match require_land_owner_auth auth old_land_id st with
    | .error m => .error (m, st)
    | .ok _ =>
      let upd : Persistent → Persistent := fun r =>
        { r with land_id := land_id, position := position,
                 orientation := orientation, scale := scale }
      let persistents1 := modify_first (fun r => r.id == persistent_id) upd st.persistents
      if land_id ≠ old_land_id then
        match require_land_owner_auth auth land_id st with
        | .error m => .error (m, st)
        | .ok _ =>
          match assert_vectors_within_bounds position orientation scale with
          | .error m => .error (m, st)
          | .ok _ => .ok { st with persistents := persistents1 }
      else
        match assert_vectors_within_bounds position orientation scale with
        | .error m => .error (m, st)
        | .ok _ => .ok { st with persistents := persistents1 }

/-- The action `deletepersis`. -/
def deletepersis (auth : Nat → Bool) (persistent_id : Nat) (st : State) :
    Except (String × State) State :=
  match st.persistents.find? (fun q => q.id == persistent_id) with
  | none => .error ("Persistent Id does not exist", st)
  | some q =>
    match require_land_owner_auth auth q.land_id st with
    | .error m => .error (m, st)
    | .ok _ =>
      let source_and_asset_id := q.source_and_asset_id
      let persistents1 := erase_first (fun r => r.id == persistent_id) st.persistents
      let st1 := { st with persistents := persistents1 }
      let source := source_and_asset_id / 2 ^ 64
      if source = poly_source then
        if (st1.persistents.find? (fun r =>
            r.source_and_asset_id == source_and_asset_id)).isSome then
          .ok st1
        else
          let aid := source_and_asset_id % 2 ^ 64
          match st1.polys.find? (fun p => p.id == aid) with
          | none => .error ("cannot pass end iterator to erase", st1)
          | some _ =>
            let polys1 := erase_first (fun p => p.id == aid) st1.polys
            .ok { st1 with polys := polys1 }
      else
        .ok st1

/-- The action `opendeposit`. -/
def opendeposit (auth : Nat → Bool) (owner : Nat) (st : State) :
    Except (String × State) State :=
  if ¬ auth owner then .error ("missing authority", st) else
  match st.deposits.find? (fun d => d.owner == owner) with
  | some _ => .ok st
  | none =>
    let new_dep : Deposit := { owner := owner, balance := 0 }
    .ok { st with deposits := st.deposits ++ [new_dep] }

/-- The action `closedeposit`. -/
def closedeposit (auth : Nat → Bool) (owner : Nat) (st : State) :
    Except (String × State) State :=
  if ¬ auth owner then .error ("missing authority", st) else
  match st.deposits.find? (fun d => d.owner == owner) with
  | none => .error ("User does not have a deposit opened", st)
  | some dep =>
    let refund : Transfer :=
      { from_acct := self_account, to_acct := owner, amount := dep.balance, memo := "" }
    let st1 := if dep.balance > 0 then { st with outbox := st.outbox ++ [refund] } else st
    let deposits1 := erase_first (fun d => d.owner == owner) st1.deposits
    .ok { st1 with deposits := deposits1 }

/-- The transfer-notification handler `depositinf` (no `require_auth`: it
is dispatched on the token account's `transfer` action). -/
def depositinf (from_acct to_acct : Nat) (quantity : asset) (memo : String)
    (st : State) : Except (String × State) State :=
  if from_acct = self_account ∨ to_acct ≠ self_account then .ok st else
  if ¬ (quantity.sym = inf_symbol) then .error ("The symbol does not match", st) else
  if ¬ quantity.is_valid then .error ("The quantity is not valid", st) else
  if ¬ (quantity.amount > 0) then .error ("The amount must be positive", st) else
  match st.deposits.find? (fun d => d.owner == from_acct) with
  | none => .error ("User does not have a deposit opened", st)
  | some _ =>
    let deposits1 := modify_first (fun d => d.owner == from_acct)
      (fun d => { d with balance := d.balance + quantity.amount }) st.deposits
    .ok { st with deposits := deposits1 }

/-- One committed public operation of the contract. -/
inductive Step (c : GeoConv) : State → State → Prop where
  | register (auth : Nat → Bool) (now owner : Nat) (n e s w : ℚ) (st st' : State) :
      registerland c auth now owner n e s w st = .ok st' → Step c st st'
  | persist (auth : Nat → Bool) (land_id : Nat) (poly_id : String)
      (position orientation scale : vector3) (st st' : State) :
      persistpoly auth land_id poly_id position orientation scale st = .ok st' →
      Step c st st'
  | update (auth : Nat → Bool) (persistent_id land_id : Nat)
      (position orientation scale : vector3) (st st' : State) :
      updatepersis auth persistent_id land_id position orientation scale st = .ok st' →
      Step c st st'
  | delete (auth : Nat → Bool) (persistent_id : Nat) (st st' : State) :
      deletepersis auth persistent_id st = .ok st' → Step c st st'
  | openDep (auth : Nat → Bool) (owner : Nat) (st st' : State) :
      opendeposit auth owner st = .ok st' → Step c st st'
  | closeDep (auth : Nat → Bool) (owner : Nat) (st st' : State) :
      closedeposit auth owner st = .ok st' → Step c st st'
  | deposit (from_acct to_acct : Nat) (quantity : asset) (memo : String) (st st' : State) :
      depositinf from_acct to_acct quantity memo st = .ok st' → Step c st st'

/-- States reachable from the empty deployment by committed operations. -/
inductive Reachable (c : GeoConv) : State → Prop where
  | init : Reachable c initialState
  | step {st st' : State} : Reachable c st → Step c st st' → Reachable c st'

/-- Open-box intersection: the open rectangles
`(long_west, long_east) × (lat_south, lat_north)` of the two lands have a
common point. -/
def boxes_intersect (a b : Land) : Prop :=
  max a.long_west_edge b.long_west_edge < min a.long_east_edge b.long_east_edge ∧
  max a.lat_south_edge b.lat_south_edge < min a.lat_north_edge b.lat_north_edge

instance (a b : Land) : Decidable (boxes_intersect a b) := by
  unfold boxes_intersect; infer_instance

/-- A candidate box presented to `registerland`, as a `Land` value (only
the four edges are meaningful). -/
def candidate (n e s w : ℚ) : Land :=
  { id := 0, owner := 0, lat_north_edge := n, long_east_edge := e,
    lat_south_edge := s, long_west_edge := w, reg_end_date := 0 }

/-- The registration fee of a box, in smallest INF units (10^-4 INF):
`round(max(side_a,1) * max(side_b,1) * inf_per_sqm) * 10000`.  The C++
`round` rounds half away from zero; the argument here is at least
`inf_per_sqm > 0`, and on positive arguments that agrees with the
half-up `round` of Mathlib used below. -/
def regfee (c : GeoConv) (n s e w : ℚ) : ℤ :=
  round (max (lat_long_to_meters c n s e w).1 1 *
    max (lat_long_to_meters c n s e w).2 1 * (inf_per_sqm : ℚ)) * 10000

/-- The INF balance of an owner, read through `find?` on the deposit
table (0 when no deposit is open). -/
def deposit_balance (st : State) (owner : Nat) : ℤ :=
  ((st.deposits.find? (fun d => d.owner == owner)).map Deposit.balance).getD 0

/-- A concrete conversion: 100 meters per degree of latitude, and a
flat longitude conversion, used for concrete executions. -/
def cExample : GeoConv := ⟨100, fun _ _ e w => 100 * (e - w)⟩

/-- A transaction carrying every authority, for concrete executions. -/
def allAuth : Nat → Bool := fun _ => true

/-- Concrete position/orientation/scale vectors within bounds. -/
def posA : vector3 := ⟨1/2, 0, 1/2⟩

/-- Concrete orientation vector. -/
def oriA : vector3 := ⟨0, 0, 0⟩

/-- Concrete scale vector. -/
def scaleA : vector3 := ⟨1, 1, 1⟩

/-- State after `opendeposit` by account 5. -/
def stOpen : State :=
  { lands := [], deposits := [{ owner := 5, balance := 0 }],
    persistents := [], polys := [], outbox := [] }

/-- State after account 5 transfers 10^9 units (100000 INF) in. -/
def stFunded : State :=
  { lands := [], deposits := [{ owner := 5, balance := 10 ^ 9 }],
    persistents := [], polys := [], outbox := [] }

/-- The land registered by account 5 in the concrete run. -/
def landA : Land :=
  { id := 0, owner := 5, lat_north_edge := 1/2, long_east_edge := 1/2,
    lat_south_edge := 0, long_west_edge := 0, reg_end_date := 31536000 }

/-- State after account 5 registers `landA` (fee 25000 INF debited and
forwarded to the token account). -/
def stAfterA : State :=
  { lands := [landA], deposits := [{ owner := 5, balance := 750000000 }],
    persistents := [], polys := [],
    outbox := [{ from_acct := 1, to_acct := 2, amount := 250000000, memo := "" }] }

/-- The Poly asset record created on the first placement. -/
def polyA : PolyRow := { id := 0, user := 5, poly_id := "ABCDEFGHIJK" }

/-- The first placement record (composite key `0 << 64 | 0`). -/
def placeRec0 : Persistent :=
  { id := 0, land_id := 0, source_and_asset_id := 0,
    position := posA, orientation := oriA, scale := scaleA }

/-- The second placement record, sharing `placeRec0`'s composite key. -/
def placeRec1 : Persistent :=
  { id := 1, land_id := 0, source_and_asset_id := 0,
    position := posA, orientation := oriA, scale := scaleA }

/-- State after the first `persistpoly` on `landA`. -/
def stOnePlace : State :=
  { stAfterA with persistents := [placeRec0], polys := [polyA] }

/-- State after placing the same Poly id on `landA` a second time. -/
def stTwoPlace : State :=
  { stAfterA with persistents := [placeRec0, placeRec1], polys := [polyA] }

/-- Well-formedness of a stored land row: positive latitude span, and a
north-south extent of at most `max_land_length` meters. -/
def LandWF (c : GeoConv) (l : Land) : Prop :=
  l.lat_south_edge < l.lat_north_edge ∧
  c.metersPerLatDeg * (l.lat_north_edge - l.lat_south_edge) ≤ (max_land_length : ℚ)

/-- The spatial invariant: every stored land is well formed and the open
boxes of distinct stored lands never intersect. -/
def LandsInv (c : GeoConv) (st : State) : Prop :=
  (∀ l ∈ st.lands, LandWF c l) ∧
  List.Pairwise (fun a b => ¬ boxes_intersect a b) st.lands

/-- The record update applied by the `updatepersis` modify lambda:
overwrite land id, position, orientation and scale, keep id and
composite key. -/
def update_row (land_id : Nat) (position orientation scale : vector3)
    (r : Persistent) : Persistent :=
  { r with land_id := land_id, position := position,
           orientation := orientation, scale := scale }

/-- A second in-bounds position used by the update run. -/
def posB : vector3 := ⟨1/4, 0, 1/4⟩

/-- The second placement record after `updatepersis` moved it to `posB`. -/
def placeRec1Upd : Persistent :=
  { id := 1, land_id := 0, source_and_asset_id := 0,
    position := posB, orientation := oriA, scale := scaleA }

/-- State after updating the second placement in `stTwoPlace`. -/
def stUpdated : State :=
  { stAfterA with persistents := [placeRec0, placeRec1Upd], polys := [polyA] }

theorem run_open : opendeposit allAuth 5 initialState = .ok stOpen := by
  rfl

theorem run_fund :
    depositinf 5 self_account ⟨10 ^ 9, inf_symbol⟩ "" stOpen = .ok stFunded := by
  rfl

theorem run_register :
    registerland cExample allAuth 0 5 (1/2) (1/2) 0 0 stFunded = .ok stAfterA := by
  simp [registerland, lat_long_to_meters, meters_to_lat_dist, scan_window,
    scan_disjuncts, modify_first, available_primary_key, stFunded, stAfterA, landA,
    max_land_length, inf_per_sqm, self_account, inf_account, seconds_in_one_year,
    cExample, allAuth]
  norm_num [round_eq]

theorem run_place1 :
    persistpoly allAuth 0 "ABCDEFGHIJK" posA oriA scaleA stAfterA = .ok stOnePlace := by
  simp [persistpoly, require_land_owner_auth, assert_vectors_within_bounds,
    add_poly, composite_key, available_primary_key, poly_source, stAfterA, landA,
    stOnePlace, placeRec0, polyA, posA, oriA, scaleA, allAuth, Nat.zero_mod,
    (by decide : "ABCDEFGHIJK".length = 11)]
  norm_num

theorem run_place2 :
    persistpoly allAuth 0 "ABCDEFGHIJK" posA oriA scaleA stOnePlace = .ok stTwoPlace := by
  simp [persistpoly, require_land_owner_auth, assert_vectors_within_bounds,
    add_poly, composite_key, available_primary_key, poly_source, stOnePlace,
    stAfterA, landA, stTwoPlace, placeRec0, placeRec1, polyA, posA, oriA, scaleA, allAuth,
    Nat.zero_mod, (by decide : "ABCDEFGHIJK".length = 11)]
  norm_num

theorem reach_stFunded : Reachable cExample stFunded :=
  (Reachable.init.step (Step.openDep allAuth 5 _ _ run_open)).step
    (Step.deposit 5 self_account ⟨10 ^ 9, inf_symbol⟩ "" _ _ run_fund)

theorem reach_stAfterA : Reachable cExample stAfterA :=
  reach_stFunded.step (Step.register allAuth 0 5 (1/2) (1/2) 0 0 _ _ run_register)

theorem reach_stTwoPlace : Reachable cExample stTwoPlace :=
  (reach_stAfterA.step
    (Step.persist allAuth 0 "ABCDEFGHIJK" posA oriA scaleA _ _ run_place1)).step
    (Step.persist allAuth 0 "ABCDEFGHIJK" posA oriA scaleA _ _ run_place2)

theorem le_foldr_max {x : Nat} {l : List Nat} (hx : x ∈ l) : x ≤ l.foldr Nat.max 0 := by
  induction l with
  | nil => cases hx
  | cons a l ih =>
    rcases List.mem_cons.mp hx with rfl | hm
    · exact Nat.le_max_left _ _
    · exact le_trans (ih hm) (Nat.le_max_right _ _)

theorem lt_available_primary_key {x : Nat} {l : List Nat} (hx : x ∈ l) :
    x < available_primary_key l := by
  cases l with
  | nil => cases hx
  | cons a l => exact Nat.lt_succ_of_le (le_foldr_max hx)

theorem find?_modify_first {α : Type} (p : α → Bool) (f : α → α)
    (hf : ∀ a, p a = true → p (f a) = true) (l : List α) :
    (modify_first p f l).find? p = (l.find? p).map f := by
  induction l with
  | nil => rfl
  | cons a l ih =>
    by_cases hpa : p a = true
    · simp [modify_first, hpa, List.find?_cons_of_pos, hf a hpa]
    · simp only [modify_first, hpa, if_false, Bool.false_eq_true]
      rw [List.find?_cons_of_neg _ (by simp [hpa]),
        List.find?_cons_of_neg _ (by simp [hpa]), ih]

theorem mem_modify_first_of_neg {α : Type} {p : α → Bool} {f : α → α}
    {l : List α} {a : α} (ha : a ∈ l) (hpa : p a = false) :
    a ∈ modify_first p f l := by
  induction l with
  | nil => cases ha
  | cons b l ih =>
    rcases List.mem_cons.mp ha with rfl | hm
    · simp [modify_first, hpa]
    · by_cases hpb : p b = true
      · simp [modify_first, hpb, List.mem_cons, hm]
      · simp only [modify_first, hpb, if_false, Bool.false_eq_true, List.mem_cons]
        exact Or.inr (ih hm)


/-- Unfolded form of `registerland` (let-bindings inlined), proved by
definitional unfolding and used to drive case analysis. -/
theorem registerland_eq (c : GeoConv) (auth : Nat → Bool) (now owner : Nat)
    (n e s w : ℚ) (st : State) :
    registerland c auth now owner n e s w st =
      (if ¬ auth owner then .error ("missing authority", st) else
       if ¬ (n > s) then
         .error ("North edge must have greater latitude than south edge", st) else
       if ¬ (e > w) then
         .error ("East edge must have greater longitude than west edge", st) else
       if ¬ (n < 85) then
         .error ("Latitude cannot be greater than 85 degrees", st) else
       if ¬ (s > -85) then
         .error ("Latitude cannot be less than -85 degrees", st) else
       if ¬ (e ≤ 180 ∧ e > -180 ∧ w ≤ 180 ∧ w > -180) then
         .error ("Longitude must be between -180 and 180 degrees", st) else
       if ¬ ((lat_long_to_meters c n s e w).1 ≤ (max_land_length : ℚ) ∧
           (lat_long_to_meters c n s e w).2 ≤ (max_land_length : ℚ)) then
         .error ("Land cannot exceed a length of 100 meters on either side", st) else
       if (scan_window st.lands s (n + meters_to_lat_dist c (max_land_length : ℚ))).any
           (fun l => ¬ scan_disjuncts l n e s w) then
         .error ("Intersecting land has already been registered", st) else
       match st.deposits.find? (fun d => d.owner == owner) with
       | none => .error ("User does not have a deposit opened", st)
       | some dep =>
         if ¬ (dep.balance ≥ regfee c n s e w) then
           .error ("User\x27s INF deposit balance is too low", st) else
         .ok { lands := st.lands ++
                 [{ id := available_primary_key (st.lands.map Land.id),
                    owner := owner, lat_north_edge := n, long_east_edge := e,
                    lat_south_edge := s, long_west_edge := w,
                    reg_end_date := now + seconds_in_one_year }],
               deposits := modify_first (fun d => d.owner == owner)
                 (fun d => { d with balance := d.balance - regfee c n s e w }) st.deposits,
               persistents := st.persistents, polys := st.polys,
               outbox := st.outbox ++
                 [{ from_acct := self_account, to_acct := inf_account,
                    amount := regfee c n s e w, memo := "" }] }) := by
  rfl

theorem registerland_ok_spec {c : GeoConv} {auth : Nat → Bool} {now owner : Nat}
    {n e s w : ℚ} {st st' : State}
    (h : registerland c auth now owner n e s w st = .ok st') :
    auth owner = true ∧ s < n ∧ w < e ∧ n < 85 ∧ -85 < s ∧
    (e ≤ 180 ∧ e > -180 ∧ w ≤ 180 ∧ w > -180) ∧
    (lat_long_to_meters c n s e w).1 ≤ (max_land_length : ℚ) ∧
    (lat_long_to_meters c n s e w).2 ≤ (max_land_length : ℚ) ∧
    (∀ l ∈ scan_window st.lands s (n + meters_to_lat_dist c (max_land_length : ℚ)),
        scan_disjuncts l n e s w = true) ∧
    ∃ dep, st.deposits.find? (fun d => d.owner == owner) = some dep ∧
      regfee c n s e w ≤ dep.balance ∧
      st' = { lands := st.lands ++
                [{ id := available_primary_key (st.lands.map Land.id),
                   owner := owner, lat_north_edge := n, long_east_edge := e,
                   lat_south_edge := s, long_west_edge := w,
                   reg_end_date := now + seconds_in_one_year }],
              deposits := modify_first (fun d => d.owner == owner)
                (fun d => { d with balance := d.balance - regfee c n s e w }) st.deposits,
              persistents := st.persistents, polys := st.polys,
              outbox := st.outbox ++
                [{ from_acct := self_account, to_acct := inf_account,
                   amount := regfee c n s e w, memo := "" }] } := by
  rw [registerland_eq] at h
  split at h
  · exact Except.noConfusion h
  rename_i hauth
  split at h
  · exact Except.noConfusion h
  rename_i hns
  split at h
  · exact Except.noConfusion h
  rename_i hew
  split at h
  · exact Except.noConfusion h
  rename_i hn85
  split at h
  · exact Except.noConfusion h
  rename_i hs85
  split at h
  · exact Except.noConfusion h
  rename_i hlong
  split at h
  · exact Except.noConfusion h
  rename_i hsize
  split at h
  · exact Except.noConfusion h
  rename_i hscan
  split at h
  · exact Except.noConfusion h
  rename_i dep hdep
  split at h
  · exact Except.noConfusion h
  rename_i hbal
  cases h
  refine ⟨not_not.mp hauth, not_not.mp hns, not_not.mp hew, not_not.mp hn85,
    not_not.mp hs85, not_not.mp hlong, (not_not.mp hsize).1, (not_not.mp hsize).2,
    ?_, dep, hdep, not_not.mp hbal, rfl⟩
  intro l hl
  by_contra hcon
  exact hscan (List.any_eq_true.mpr ⟨l, hl, by simp [hcon]⟩)

/-- Unfolded form of `persistpoly`. -/
theorem persistpoly_eq (auth : Nat → Bool) (land_id : Nat) (poly_id : String)
    (position orientation scale : vector3) (st : State) :
    persistpoly auth land_id poly_id position orientation scale st =
      (match require_land_owner_auth auth land_id st with
       | .error m => .error (m, st)
       | .ok user =>
         match assert_vectors_within_bounds position orientation scale with
         | .error m => .error (m, st)
         | .ok _ =>
           match add_poly auth user poly_id st.polys with
           | .error m => .error (m, st)
           | .ok (asset_id, polys1) =>
             let new_row : Persistent :=
               { id := available_primary_key (st.persistents.map Persistent.id),
                 land_id := land_id,
                 source_and_asset_id := composite_key poly_source asset_id,
                 position := position, orientation := orientation, scale := scale }
             .ok { st with persistents := st.persistents ++ [new_row], polys := polys1 }) := by
  rfl

/-- Unfolded form of `updatepersis`. -/
theorem updatepersis_eq (auth : Nat → Bool) (persistent_id land_id : Nat)
    (position orientation scale : vector3) (st : State) :
    updatepersis auth persistent_id land_id position orientation scale st =
      (match st.persistents.find? (fun q => q.id == persistent_id) with
       | none => .error ("Persistent Id does not exist", st)
       | some q =>
         match require_land_owner_auth auth q.land_id st with
         | .error m => .error (m, st)
         | .ok _ =>
           let upd : Persistent → Persistent := fun r =>
             { r with land_id := land_id, position := position,
                      orientation := orientation, scale := scale }
           let persistents1 := modify_first (fun r => r.id == persistent_id) upd st.persistents
           if land_id ≠ q.land_id then
             match require_land_owner_auth auth land_id st with
             | .error m => .error (m, st)
             | .ok _ =>
               match assert_vectors_within_bounds position orientation scale with
               | .error m => .error (m, st)
               | .ok _ => .ok { st with persistents := persistents1 }
           else
             match assert_vectors_within_bounds position orientation scale with
             | .error m => .error (m, st)
             | .ok _ => .ok { st with persistents := persistents1 }) := by
  rfl

/-- Unfolded form of `deletepersis`. -/
theorem deletepersis_eq (auth : Nat → Bool) (persistent_id : Nat) (st : State) :
    deletepersis auth persistent_id st =
      (match st.persistents.find? (fun q => q.id == persistent_id) with
       | none => .error ("Persistent Id does not exist", st)
       | some q =>
         match require_land_owner_auth auth q.land_id st with
         | .error m => .error (m, st)
         | .ok _ =>
           let persistents1 := erase_first (fun r => r.id == persistent_id) st.persistents
           if q.source_and_asset_id / 2 ^ 64 = poly_source then
             if (persistents1.find?
                 (fun r => r.source_and_asset_id == q.source_and_asset_id)).isSome then
               .ok { st with persistents := persistents1 }
             else
               match st.polys.find? (fun p => p.id == q.source_and_asset_id % 2 ^ 64) with
               | none => .error ("cannot pass end iterator to erase",
                   { st with persistents := persistents1 })
               | some _ =>
                 let polys1 :=
                   erase_first (fun p => p.id == q.source_and_asset_id % 2 ^ 64) st.polys
                 .ok { st with persistents := persistents1, polys := polys1 }
           else
             .ok { st with persistents := persistents1 }) := by
  rfl

/-- Unfolded form of `opendeposit`. -/
theorem opendeposit_eq (auth : Nat → Bool) (owner : Nat) (st : State) :
    opendeposit auth owner st =
      (if ¬ auth owner then .error ("missing authority", st) else
       match st.deposits.find? (fun d => d.owner == owner) with
       | some _ => .ok st
       | none =>
         .ok { st with deposits := st.deposits ++ [{ owner := owner, balance := 0 }] }) := by
  rfl

/-- Unfolded form of `depositinf`. -/
theorem depositinf_eq (from_acct to_acct : Nat) (quantity : asset) (memo : String)
    (st : State) :
    depositinf from_acct to_acct quantity memo st =
      (if from_acct = self_account ∨ to_acct ≠ self_account then .ok st else
       if ¬ (quantity.sym = inf_symbol) then .error ("The symbol does not match", st) else
       if ¬ quantity.is_valid then .error ("The quantity is not valid", st) else
       if ¬ (quantity.amount > 0) then .error ("The amount must be positive", st) else
       match st.deposits.find? (fun d => d.owner == from_acct) with
       | none => .error ("User does not have a deposit opened", st)
       | some _ =>
         let deposits1 := modify_first (fun d => d.owner == from_acct)
           (fun d => { d with balance := d.balance + quantity.amount }) st.deposits
         .ok { st with deposits := deposits1 }) := by
  rfl

/-- Unfolded form of `closedeposit` (the refund `let` distributed over
its branches). -/
theorem closedeposit_eq (auth : Nat → Bool) (owner : Nat) (st : State) :
    closedeposit auth owner st =
      (if ¬ auth owner then .error ("missing authority", st) else
       match st.deposits.find? (fun d => d.owner == owner) with
       | none => .error ("User does not have a deposit opened", st)
       | some dep =>
         let deposits1 := erase_first (fun d => d.owner == owner) st.deposits
         if dep.balance > 0 then
           let refund : Transfer :=
             { from_acct := self_account, to_acct := owner,
               amount := dep.balance, memo := "" }
           .ok { st with deposits := deposits1, outbox := st.outbox ++ [refund] }
         else
           .ok { st with deposits := deposits1 }) := by
  unfold closedeposit
  split
  · rfl
  rcases hfind : st.deposits.find? (fun d => d.owner == owner) with _ | dep <;>
    simp only [hfind]
  by_cases hb : dep.balance > 0 <;> simp [hb]

/-- C2: whenever `registerland` aborts, the state carried at the abort
point equals the pre-call state — every assertion of the action runs
before its first table write, so no partial apply is observable. -/
theorem registerland_atomic (c : GeoConv) (auth : Nat → Bool) (now owner : Nat)
    (n e s w : ℚ) (st st' : State) (msg : String)
    (h : registerland c auth now owner n e s w st = .error (msg, st')) :
    st' = st := by
  rw [registerland_eq] at h
  repeat' split at h
  all_goals
    first
    | exact Except.noConfusion h
    | (injection h with h1; injection h1 with h2 h3; exact h3.symm)

theorem persistpoly_ok_lands {auth : Nat → Bool} {land_id : Nat} {poly_id : String}
    {position orientation scale : vector3} {st st' : State}
    (h : persistpoly auth land_id poly_id position orientation scale st = .ok st') :
    st'.lands = st.lands := by
  rw [persistpoly_eq] at h
  repeat' split at h
  all_goals first
    | exact Except.noConfusion h
    | (obtain rfl := Except.ok.inj h; rfl)

theorem updatepersis_ok_frame {auth : Nat → Bool} {persistent_id land_id : Nat}
    {position orientation scale : vector3} {st st' : State}
    (h : updatepersis auth persistent_id land_id position orientation scale st = .ok st') :
    st'.lands = st.lands ∧ st'.deposits = st.deposits ∧ st'.polys = st.polys ∧
    st'.outbox = st.outbox := by
  rw [updatepersis_eq] at h
  repeat' split at h
  all_goals first
    | exact Except.noConfusion h
    | (obtain rfl := Except.ok.inj h; exact ⟨rfl, rfl, rfl, rfl⟩)

theorem deletepersis_ok_frame {auth : Nat → Bool} {persistent_id : Nat} {st st' : State}
    (h : deletepersis auth persistent_id st = .ok st') :
    st'.lands = st.lands ∧ st'.deposits = st.deposits ∧ st'.outbox = st.outbox := by
  rw [deletepersis_eq] at h
  repeat'
    first
    | exact Except.noConfusion h
    | (obtain rfl := Except.ok.inj h; exact ⟨rfl, rfl, rfl⟩)
    | split at h
    | simp only [] at h

theorem opendeposit_ok_lands {auth : Nat → Bool} {owner : Nat} {st st' : State}
    (h : opendeposit auth owner st = .ok st') : st'.lands = st.lands := by
  rw [opendeposit_eq] at h
  repeat' split at h
  all_goals first
    | exact Except.noConfusion h
    | (obtain rfl := Except.ok.inj h; rfl)

theorem closedeposit_ok_lands {auth : Nat → Bool} {owner : Nat} {st st' : State}
    (h : closedeposit auth owner st = .ok st') : st'.lands = st.lands := by
  rw [closedeposit_eq] at h
  repeat' split at h
  all_goals first
    | exact Except.noConfusion h
    | (obtain rfl := Except.ok.inj h; rfl)

theorem depositinf_ok_lands {from_acct to_acct : Nat} {quantity : asset} {memo : String}
    {st st' : State} (h : depositinf from_acct to_acct quantity memo st = .ok st') :
    st'.lands = st.lands := by
  rw [depositinf_eq] at h
  repeat' split at h
  all_goals first
    | exact Except.noConfusion h
    | (obtain rfl := Except.ok.inj h; rfl)

theorem LandsInv_of_lands_eq {c : GeoConv} {st st' : State}
    (hl : st'.lands = st.lands) (hinv : LandsInv c st) : LandsInv c st' := by
  unfold LandsInv at *
  rw [hl]
  exact hinv

theorem meters_to_lat_dist_def (c : GeoConv) :
    meters_to_lat_dist c (max_land_length : ℚ) = (max_land_length : ℚ) / c.metersPerLatDeg := rfl

theorem intersecting_land_in_window {c : GeoConv} (hc : 0 < c.metersPerLatDeg)
    {lands : List Land} {l : Land} {n e s w : ℚ}
    (hl : l ∈ lands) (hwf : LandWF c l)
    (hint : boxes_intersect l (candidate n e s w)) :
    l ∈ scan_window lands s (n + meters_to_lat_dist c (max_land_length : ℚ)) ∧
    scan_disjuncts l n e s w = false := by
  obtain ⟨hlon, hlat⟩ := hint
  simp only [candidate] at hlon hlat
  have hws : w < l.long_east_edge :=
    lt_of_le_of_lt (le_max_right _ _) (lt_of_lt_of_le hlon (min_le_left _ _))
  have hwe : l.long_west_edge < e :=
    lt_of_le_of_lt (le_max_left _ _) (lt_of_lt_of_le hlon (min_le_right _ _))
  have hsn : l.lat_south_edge < n :=
    lt_of_le_of_lt (le_max_left _ _) (lt_of_lt_of_le hlat (min_le_right _ _))
  have hsln : s < l.lat_north_edge :=
    lt_of_le_of_lt (le_max_right _ _) (lt_of_lt_of_le hlat (min_le_left _ _))
  have hheight : l.lat_north_edge - l.lat_south_edge ≤ (max_land_length : ℚ) / c.metersPerLatDeg :=
    (le_div_iff₀ hc).mpr (by linarith [hwf.2])
  have hupper : l.lat_north_edge < n + meters_to_lat_dist c (max_land_length : ℚ) := by
    rw [meters_to_lat_dist_def c]
    linarith
  refine ⟨List.mem_filter.mpr ⟨hl, ?_⟩, ?_⟩
  · simp only [Bool.and_eq_true, decide_eq_true_eq]
    exact ⟨le_of_lt hsln, hupper⟩
  · simp only [scan_disjuncts, Bool.or_eq_false_iff, decide_eq_false_iff_not, not_le, ge_iff_le]
    exact ⟨⟨⟨hws, hwe⟩, hsn⟩, hsln⟩

theorem reachable_lands_inv {c : GeoConv} (hc : 0 < c.metersPerLatDeg) {st : State}
    (h : Reachable c st) : LandsInv c st := by
  induction h with
  | init => exact ⟨by simp [initialState], by simp [initialState]⟩
  | step hr hstep ih =>
    rename_i st0 st1
    cases hstep with
    | register auth now owner n e s w st st' hok =>
      obtain ⟨hauth, hns, hew, hn85, hs85, hlong, hsz1, hsz2, hscan, dep, hdep, hfee, rfl⟩ :=
        registerland_ok_spec hok
      constructor
      · intro l hl
        rcases List.mem_append.mp hl with hmem | hnew
        · exact ih.1 l hmem
        · rw [List.mem_singleton] at hnew
          subst hnew
          refine ⟨hns, ?_⟩
          simpa [lat_long_to_meters] using hsz1
      · rw [List.pairwise_append]
        refine ⟨ih.2, List.pairwise_singleton _ _, ?_⟩
        intro a ha b hb
        rw [List.mem_singleton] at hb
        subst hb
        intro hint
        have hint' : boxes_intersect a (candidate n e s w) := hint
        obtain ⟨hmem, hdisj⟩ :=
          intersecting_land_in_window hc ha (ih.1 a ha) hint'
        have := hscan a hmem
        rw [hdisj] at this
        exact Bool.noConfusion this
    | persist auth land_id poly_id position orientation scale st st' hok =>
      exact LandsInv_of_lands_eq (persistpoly_ok_lands hok) ih
    | update auth persistent_id land_id position orientation scale st st' hok =>
      exact LandsInv_of_lands_eq (updatepersis_ok_frame hok).1 ih
    | delete auth persistent_id st st' hok =>
      exact LandsInv_of_lands_eq (deletepersis_ok_frame hok).1 ih
    | openDep auth owner st st' hok =>
      exact LandsInv_of_lands_eq (opendeposit_ok_lands hok) ih
    | closeDep auth owner st st' hok =>
      exact LandsInv_of_lands_eq (closedeposit_ok_lands hok) ih
    | deposit from_acct to_acct quantity memo st st' hok =>
      exact LandsInv_of_lands_eq (depositinf_ok_lands hok) ih

theorem registerland_overlap_abort (c : GeoConv) (auth : Nat → Bool) (now owner : Nat)
    (n e s w : ℚ) (st : State)
    (hauth : auth owner = true) (hns : s < n) (hew : w < e) (hn85 : n < 85) (hs85 : -85 < s)
    (hlong : e ≤ 180 ∧ e > -180 ∧ w ≤ 180 ∧ w > -180)
    (hsz1 : (lat_long_to_meters c n s e w).1 ≤ (max_land_length : ℚ))
    (hsz2 : (lat_long_to_meters c n s e w).2 ≤ (max_land_length : ℚ))
    (hany : (scan_window st.lands s (n + meters_to_lat_dist c (max_land_length : ℚ))).any
      (fun l => ¬ scan_disjuncts l n e s w) = true) :
    registerland c auth now owner n e s w st =
      .error ("Intersecting land has already been registered", st) := by
  rw [registerland_eq, if_neg (not_not_intro hauth), if_neg (not_not_intro hns),
    if_neg (not_not_intro hew), if_neg (not_not_intro hn85), if_neg (not_not_intro hs85),
    if_neg (not_not_intro hlong), if_neg (not_not_intro ⟨hsz1, hsz2⟩), if_pos hany]

/-- C1: in every reachable state the open boxes of distinct stored
parcels are disjoint; moreover every stored parcel whose open box meets a
candidate box lies inside the bounded scan window (lower bound at the
candidate south edge on the `bylatnorth` index, upper bound at the
candidate north edge plus the maximum land length in degrees) and fails
the non-intersection disjunction there; hence `registerland` on a
candidate that passes validation but overlaps a stored parcel aborts with
the overlap error. -/
theorem registered_lands_no_overlap (c : GeoConv) (hc : 0 < c.metersPerLatDeg)
    (st : State) (h : Reachable c st) :
    List.Pairwise (fun a b => ¬ boxes_intersect a b) st.lands ∧
    (∀ n e s w : ℚ, ∀ l ∈ st.lands, boxes_intersect l (candidate n e s w) →
      l ∈ scan_window st.lands s (n + meters_to_lat_dist c (max_land_length : ℚ)) ∧
      scan_disjuncts l n e s w = false) ∧
    (∀ auth : Nat → Bool, ∀ now owner : Nat, ∀ n e s w : ℚ,
      auth owner = true → s < n → w < e → n < 85 → -85 < s →
      (e ≤ 180 ∧ e > -180 ∧ w ≤ 180 ∧ w > -180) →
      (lat_long_to_meters c n s e w).1 ≤ (max_land_length : ℚ) →
      (lat_long_to_meters c n s e w).2 ≤ (max_land_length : ℚ) →
      (∃ l ∈ st.lands, boxes_intersect l (candidate n e s w)) →
      registerland c auth now owner n e s w st =
        .error ("Intersecting land has already been registered", st)) := by
  have hinv := reachable_lands_inv hc h
  refine ⟨hinv.2, ?_, ?_⟩
  · intro n e s w l hl hint
    exact intersecting_land_in_window hc hl (hinv.1 l hl) hint
  · intro auth now owner n e s w hauth hns hew hn85 hs85 hlong hsz1 hsz2 ⟨l, hl, hint⟩
    obtain ⟨hmem, hdisj⟩ := intersecting_land_in_window hc hl (hinv.1 l hl) hint
    exact registerland_overlap_abort c auth now owner n e s w st hauth hns hew hn85 hs85
      hlong hsz1 hsz2 (List.any_eq_true.mpr ⟨l, hmem, by simp [hdisj]⟩)

theorem registered_lands_no_overlap_witness :
    List.Pairwise (fun a b => ¬ boxes_intersect a b) stAfterA.lands :=
  (registered_lands_no_overlap cExample (by norm_num [cExample]) stAfterA reach_stAfterA).1

theorem registerland_atomic_witness :
    registerland cExample (fun _ => false) 0 5 (1/2) (1/2) 0 0 stFunded =
      .error ("missing authority", stFunded) ∧ stFunded = stFunded :=
  ⟨by rw [registerland_eq]; simp,
   registerland_atomic cExample (fun _ => false) 0 5 (1/2) (1/2) 0 0 stFunded stFunded
     "missing authority" (by rw [registerland_eq]; simp)⟩

/-- C10: an open deposit is a precondition of registration distinct from
the balance check — with a valid, size-checked, non-overlapping box but no
deposit row for the owner, `registerland` aborts with the missing-deposit
error, carrying the unmodified state. -/
theorem registerland_requires_deposit (c : GeoConv) (auth : Nat → Bool) (now owner : Nat)
    (n e s w : ℚ) (st : State)
    (hauth : auth owner = true) (hns : s < n) (hew : w < e) (hn85 : n < 85) (hs85 : -85 < s)
    (hlong : e ≤ 180 ∧ e > -180 ∧ w ≤ 180 ∧ w > -180)
    (hsz1 : (lat_long_to_meters c n s e w).1 ≤ (max_land_length : ℚ))
    (hsz2 : (lat_long_to_meters c n s e w).2 ≤ (max_land_length : ℚ))
    (hscan : ∀ l ∈ scan_window st.lands s (n + meters_to_lat_dist c (max_land_length : ℚ)),
      scan_disjuncts l n e s w = true)
    (hnodep : st.deposits.find? (fun d => d.owner == owner) = none) :
    registerland c auth now owner n e s w st =
      .error ("User does not have a deposit opened", st) := by
  rw [registerland_eq, if_neg (not_not_intro hauth), if_neg (not_not_intro hns),
    if_neg (not_not_intro hew), if_neg (not_not_intro hn85), if_neg (not_not_intro hs85),
    if_neg (not_not_intro hlong), if_neg (not_not_intro ⟨hsz1, hsz2⟩),
    if_neg (by simpa using hscan), hnodep]

theorem registerland_requires_deposit_witness :
    registerland cExample allAuth 0 5 (1/2) (1/2) 0 0 initialState =
      .error ("User does not have a deposit opened", initialState) :=
  registerland_requires_deposit cExample allAuth 0 5 (1/2) (1/2) 0 0 initialState
    rfl (by norm_num) (by norm_num) (by norm_num) (by norm_num)
    (by norm_num) (by norm_num [lat_long_to_meters, cExample, max_land_length])
    (by norm_num [lat_long_to_meters, cExample, max_land_length])
    (by intro l hl; simp [initialState, scan_window] at hl)
    rfl

/-- C3: the amount debited from the owner by a successful `registerland`
is `round(max(side_a,1) * max(side_b,1) * inf_per_sqm)` whole INF,
expressed in the smallest currency unit by the factor `10^4`, where the
sides are the physical lengths from the degrees-to-meters conversion. -/
theorem registerland_fee_formula (c : GeoConv) (auth : Nat → Bool) (now owner : Nat)
    (n e s w : ℚ) (st st' : State)
    (h : registerland c auth now owner n e s w st = .ok st') :
    deposit_balance st owner - deposit_balance st' owner =
      round (max (lat_long_to_meters c n s e w).1 1 *
        max (lat_long_to_meters c n s e w).2 1 * (inf_per_sqm : ℚ)) * 10000 := by
  obtain ⟨-, -, -, -, -, -, -, -, -, dep, hdep, -, rfl⟩ := registerland_ok_spec h
  have hfm := find?_modify_first (fun d => d.owner == owner)
    (fun d => { d with balance := d.balance - regfee c n s e w }) (fun a ha => ha) st.deposits
  simp only [deposit_balance, hfm, hdep, Option.map_some, Option.getD_some]
  show dep.balance - (dep.balance - regfee c n s e w) = _
  simp [regfee]

theorem registerland_fee_formula_witness :
    deposit_balance stFunded 5 - deposit_balance stAfterA 5 =
      round (max (lat_long_to_meters cExample (1/2) 0 (1/2) 0).1 1 *
        max (lat_long_to_meters cExample (1/2) 0 (1/2) 0).2 1 * (inf_per_sqm : ℚ)) * 10000 :=
  registerland_fee_formula cExample allAuth 0 5 (1/2) (1/2) 0 0 stFunded stAfterA run_register

/-- Unfolded form of `add_poly`. -/
theorem add_poly_eq (auth : Nat → Bool) (user : Nat) (poly_id : String)
    (polys : List PolyRow) :
    add_poly auth user poly_id polys =
      (if ¬ auth user then .error "missing authority" else
       if ¬ (poly_id.length = 11) then .error "Poly Id format is invalid" else
       match polys.find? (fun p => p.user == user && p.poly_id == poly_id) with
       | some p => .ok (p.id, polys)
       | none => .ok (available_primary_key (polys.map PolyRow.id),
           polys ++ [{ id := available_primary_key (polys.map PolyRow.id),
                       user := user, poly_id := poly_id }])) := by
  rfl

theorem add_poly_ok_cases {auth : Nat → Bool} {user : Nat} {poly_id : String}
    {polys polys1 : List PolyRow} {i : Nat}
    (h : add_poly auth user poly_id polys = .ok (i, polys1)) :
    auth user = true ∧ poly_id.length = 11 ∧
    ((∃ q, polys.find? (fun p => p.user == user && p.poly_id == poly_id) = some q ∧
        i = q.id ∧ polys1 = polys) ∨
      (polys.find? (fun p => p.user == user && p.poly_id == poly_id) = none ∧
        i = available_primary_key (polys.map PolyRow.id) ∧
        polys1 = polys ++ [{ id := i, user := user, poly_id := poly_id }])) := by
  rw [add_poly_eq] at h
  split at h
  · exact Except.noConfusion h
  rename_i hauth
  split at h
  · exact Except.noConfusion h
  rename_i hlen
  split at h
  · rename_i q hfind
    obtain ⟨h1, h2⟩ := Prod.mk.inj (Except.ok.inj h)
    exact ⟨not_not.mp hauth, not_not.mp hlen, Or.inl ⟨q, hfind, h1.symm, h2.symm⟩⟩
  · rename_i hfind
    obtain ⟨h1, h2⟩ := Prod.mk.inj (Except.ok.inj h)
    subst h1
    exact ⟨not_not.mp hauth, not_not.mp hlen, Or.inr ⟨hfind, rfl, h2.symm⟩⟩

theorem find?_poly_user {q : PolyRow} {polys : List PolyRow} {u : Nat} {pid : String}
    (hfind : polys.find? (fun p => p.user == u && p.poly_id == pid) = some q) :
    q ∈ polys ∧ q.user = u := by
  refine ⟨List.mem_of_find?_eq_some hfind, ?_⟩
  have := List.find?_some hfind
  simp only [Bool.and_eq_true, beq_iff_eq] at this
  exact this.1

/-- C4: resolving the same (owner, poly id) pair twice returns the same
internal asset id and leaves the table unchanged on the second call; two
different owners resolving the same poly id obtain distinct asset ids. -/
theorem add_poly_idempotent_dedup (auth : Nat → Bool) (u1 u2 : Nat) (pid : String)
    (polys polys1 : List PolyRow) (i1 : Nat)
    (h1 : add_poly auth u1 pid polys = .ok (i1, polys1)) :
    add_poly auth u1 pid polys1 = .ok (i1, polys1) ∧
    ∀ i2 polys2, add_poly auth u2 pid polys1 = .ok (i2, polys2) → u1 ≠ u2 →
      (polys.map PolyRow.id).Nodup → i1 ≠ i2 := by
  obtain ⟨hauth, hlen, hcases⟩ := add_poly_ok_cases h1
  have hmem1 : ∃ r ∈ polys1, r.id = i1 ∧ r.user = u1 := by
    rcases hcases with ⟨q, hfind, rfl, rfl⟩ | ⟨hfind, rfl, rfl⟩
    · obtain ⟨hq, hu⟩ := find?_poly_user hfind
      exact ⟨q, hq, rfl, hu⟩
    · exact ⟨_, List.mem_append_right _ (List.mem_singleton_self _), rfl, rfl⟩
  have hfind1 : polys1.find? (fun p => p.user == u1 && p.poly_id == pid) =
      some { id := i1, user := u1, poly_id := pid } ∨
      ∃ q, polys1.find? (fun p => p.user == u1 && p.poly_id == pid) = some q ∧ q.id = i1 := by
    rcases hcases with ⟨q, hfind, rfl, rfl⟩ | ⟨hfind, rfl, rfl⟩
    · exact Or.inr ⟨q, hfind, rfl⟩
    · refine Or.inl ?_
      rw [List.find?_append, hfind]
      simp
  have hnodup1 : (polys.map PolyRow.id).Nodup → (polys1.map PolyRow.id).Nodup := by
    intro hnd
    rcases hcases with ⟨q, hfind, rfl, rfl⟩ | ⟨hfind, rfl, rfl⟩
    · exact hnd
    · rw [List.map_append, List.nodup_append]
      refine ⟨hnd, List.nodup_singleton _, ?_⟩
      intro a ha
      simp only [List.map_cons, List.map_nil, List.mem_singleton]
      intro hcon
      subst hcon
      exact absurd (lt_available_primary_key ha) (by simp)
  constructor
  · rw [add_poly_eq, if_neg (not_not_intro hauth), if_neg (not_not_intro hlen)]
    rcases hfind1 with hf | ⟨q, hf, hq⟩
    · rw [hf]
    · rw [hf]
      simp [hq]
  · intro i2 polys2 h2 hne hnodup
    obtain ⟨-, -, hcases2⟩ := add_poly_ok_cases h2
    obtain ⟨r1, hr1, hr1id, hr1u⟩ := hmem1
    rcases hcases2 with ⟨q2, hfind2, rfl, rfl⟩ | ⟨-, rfl, -⟩
    · obtain ⟨hq2, hq2u⟩ := find?_poly_user hfind2
      intro hcon
      have : r1 = q2 := by
        apply List.inj_on_of_nodup_map (hnodup1 hnodup) hr1 hq2
        rw [hr1id, hcon]
      exact hne (by rw [← hr1u, this, hq2u])
    · intro hcon
      have hlt : i1 < available_primary_key (polys1.map PolyRow.id) := by
        apply lt_available_primary_key
        rw [← hr1id]
        exact List.mem_map_of_mem PolyRow.id hr1
      exact absurd hcon (Nat.ne_of_lt hlt)

theorem add_poly_idempotent_dedup_witness :
    (add_poly allAuth 1 "ABCDEFGHIJK" [] =
      .ok (0, [{ id := 0, user := 1, poly_id := "ABCDEFGHIJK" }])) ∧
    (add_poly allAuth 1 "ABCDEFGHIJK" [{ id := 0, user := 1, poly_id := "ABCDEFGHIJK" }] =
      .ok (0, [{ id := 0, user := 1, poly_id := "ABCDEFGHIJK" }])) ∧ (0 : Nat) ≠ 1 := by
  have h1 : add_poly allAuth 1 "ABCDEFGHIJK" [] =
      .ok (0, [{ id := 0, user := 1, poly_id := "ABCDEFGHIJK" }]) := by
    rw [add_poly_eq]
    simp [allAuth, available_primary_key, (by decide : "ABCDEFGHIJK".length = 11)]
  have h2 : add_poly allAuth 2 "ABCDEFGHIJK"
      [{ id := 0, user := 1, poly_id := "ABCDEFGHIJK" }] =
      .ok (1, [{ id := 0, user := 1, poly_id := "ABCDEFGHIJK" },
               { id := 1, user := 2, poly_id := "ABCDEFGHIJK" }]) := by
    rw [add_poly_eq]
    simp [allAuth, available_primary_key, (by decide : "ABCDEFGHIJK".length = 11)]
  exact ⟨h1, (add_poly_idempotent_dedup allAuth 1 2 "ABCDEFGHIJK" _ _ 0 h1).1,
    (add_poly_idempotent_dedup allAuth 1 2 "ABCDEFGHIJK" _ _ 0 h1).2 1 _ h2
      (by decide) (by simp)⟩

theorem any_eq_find?_isSome {α : Type} (p : α → Bool) (l : List α) :
    l.any p = (l.find? p).isSome := by
  induction l with
  | nil => rfl
  | cons a l ih =>
    by_cases hpa : p a = true
    · simp [List.find?_cons_of_pos, hpa]
    · rw [List.any_cons, List.find?_cons_of_neg _ (by simp [hpa]), ← ih]
      simp [hpa]

theorem require_land_owner_auth_ok {auth : Nat → Bool} {land_id owner : Nat} {st : State}
    (h : require_land_owner_auth auth land_id st = .ok owner) :
    ∃ l ∈ st.lands, l.id = land_id ∧ l.owner = owner ∧ auth owner = true := by
  unfold require_land_owner_auth at h
  split at h
  · exact Except.noConfusion h
  rename_i l hfind
  split at h
  · exact Except.noConfusion h
  rename_i hauth
  obtain rfl := Except.ok.inj h
  refine ⟨l, List.mem_of_find?_eq_some hfind, ?_, rfl, not_not.mp hauth⟩
  have := List.find?_some hfind
  simpa using this

/-- C5: a successful `deletepersis` of a POLY-tagged placement removes
exactly that placement; the referenced Poly asset record is deleted iff no
remaining placement carries the same composite key, and is retained
unchanged when one does. -/
theorem deletepersis_refcount_gc (auth : Nat → Bool) (persistent_id : Nat)
    (st st' : State) (q : Persistent)
    (hq : st.persistents.find? (fun r => r.id == persistent_id) = some q)
    (hsrc : q.source_and_asset_id / 2 ^ 64 = poly_source)
    (h : deletepersis auth persistent_id st = .ok st') :
    st'.persistents = erase_first (fun r => r.id == persistent_id) st.persistents ∧
    st'.lands = st.lands ∧ st'.deposits = st.deposits ∧ st'.outbox = st.outbox ∧
    ((st'.persistents.any
        (fun r => r.source_and_asset_id == q.source_and_asset_id)) = true →
      st'.polys = st.polys) ∧
    ((st'.persistents.any
        (fun r => r.source_and_asset_id == q.source_and_asset_id)) = false →
      (∃ a ∈ st.polys, a.id = q.source_and_asset_id % 2 ^ 64) ∧
      st'.polys = erase_first (fun p => p.id == q.source_and_asset_id % 2 ^ 64) st.polys) := by
  rw [deletepersis_eq, hq] at h
  simp only [] at h
  split at h
  · exact Except.noConfusion h
  rw [if_pos hsrc] at h
  split at h
  · rename_i hsome
    obtain rfl := Except.ok.inj h
    refine ⟨rfl, rfl, rfl, rfl, fun _ => rfl, fun hfalse => ?_⟩
    rw [any_eq_find?_isSome, hsome] at hfalse
    exact Bool.noConfusion hfalse
  · rename_i hnone
    split at h
    · exact Except.noConfusion h
    rename_i a hpoly
    obtain rfl := Except.ok.inj h
    have hfsome : a.id = q.source_and_asset_id % 2 ^ 64 := by
      have := List.find?_some hpoly
      simpa using this
    refine ⟨rfl, rfl, rfl, rfl, fun htrue => ?_,
      fun _ => ⟨⟨a, List.mem_of_find?_eq_some hpoly, hfsome⟩, rfl⟩⟩
    rw [any_eq_find?_isSome] at htrue
    exact absurd htrue hnone

theorem deletepersis_refcount_gc_witness :
    deletepersis allAuth 1 stTwoPlace = .ok stOnePlace ∧
    stOnePlace.polys = stTwoPlace.polys := by
  have hrun : deletepersis allAuth 1 stTwoPlace = .ok stOnePlace := by
    rw [deletepersis_eq]
    simp [stTwoPlace, stOnePlace, stAfterA, landA, placeRec0, placeRec1, erase_first,
      require_land_owner_auth, allAuth, poly_source]
  refine ⟨hrun, ?_⟩
  have hfind : stTwoPlace.persistents.find? (fun r => r.id == 1) = some placeRec1 := by
    simp [stTwoPlace, placeRec0, placeRec1, List.find?]
  have := (deletepersis_refcount_gc allAuth 1 stTwoPlace stOnePlace placeRec1 hfind
    (by rfl) hrun).2.2.2.2.1
  apply this
  simp [stOnePlace, placeRec0, placeRec1]

/-- C7: `depositinf` ignores transfers from the contract itself or not
addressed to it (success, no state change); otherwise it aborts on a
wrong currency symbol, a non-positive amount, or a missing deposit, and
on success it credits exactly the transferred amount to the sender and
touches nothing else. -/
theorem depositinf_behaviour (from_acct to_acct : Nat) (quantity : asset) (memo : String)
    (st : State) :
    ((from_acct = self_account ∨ to_acct ≠ self_account) →
      depositinf from_acct to_acct quantity memo st = .ok st) ∧
    (from_acct ≠ self_account → to_acct = self_account →
      (quantity.sym ≠ inf_symbol ∨ quantity.amount ≤ 0 ∨
        st.deposits.find? (fun d => d.owner == from_acct) = none) →
      ∃ m, depositinf from_acct to_acct quantity memo st = .error (m, st)) ∧
    (∀ st', from_acct ≠ self_account → to_acct = self_account →
      depositinf from_acct to_acct quantity memo st = .ok st' →
      deposit_balance st' from_acct = deposit_balance st from_acct + quantity.amount ∧
      st'.lands = st.lands ∧ st'.persistents = st.persistents ∧ st'.polys = st.polys ∧
      st'.outbox = st.outbox ∧
      ∀ d ∈ st.deposits, d.owner ≠ from_acct → d ∈ st'.deposits) := by
  refine ⟨?_, ?_, ?_⟩
  · intro hcond
    rw [depositinf_eq, if_pos hcond]
  · intro hfrom hto hbad
    rw [depositinf_eq, if_neg (by push_neg; exact ⟨hfrom, hto⟩)]
    by_cases hsym : quantity.sym = inf_symbol
    · rw [if_neg (not_not_intro hsym)]
      by_cases hvalid : quantity.is_valid = true
      · rw [if_neg (not_not_intro hvalid)]
        by_cases hamt : quantity.amount > 0
        · rw [if_neg (not_not_intro hamt)]
          rcases hbad with hbad | hbad | hbad
          · exact absurd hsym hbad
          · exact absurd hamt (not_lt.mpr hbad)
          · rw [hbad]
            exact ⟨_, rfl⟩
        · rw [if_pos hamt]
          exact ⟨_, rfl⟩
      · rw [if_pos hvalid]
        exact ⟨_, rfl⟩
    · rw [if_pos hsym]
      exact ⟨_, rfl⟩
  · intro st' hfrom hto h
    rw [depositinf_eq, if_neg (by push_neg; exact ⟨hfrom, hto⟩)] at h
    split at h
    · exact Except.noConfusion h
    split at h
    · exact Except.noConfusion h
    split at h
    · exact Except.noConfusion h
    split at h
    · exact Except.noConfusion h
    rename_i dep hdep
    obtain rfl := Except.ok.inj h
    have hfm := find?_modify_first (fun d => d.owner == from_acct)
      (fun d => { d with balance := d.balance + quantity.amount })
      (fun a ha => ha) st.deposits
    refine ⟨?_, rfl, rfl, rfl, rfl, ?_⟩
    · simp [deposit_balance, hfm, hdep]
    · intro d hd hdo
      exact mem_modify_first_of_neg hd (by simp [hdo])

theorem depositinf_behaviour_witness :
    depositinf self_account 7 ⟨5, inf_symbol⟩ "" initialState = .ok initialState ∧
    deposit_balance stFunded 5 = deposit_balance stOpen 5 + (10 ^ 9 : ℤ) :=
  ⟨(depositinf_behaviour self_account 7 ⟨5, inf_symbol⟩ "" initialState).1 (Or.inl rfl),
   ((depositinf_behaviour 5 self_account ⟨10 ^ 9, inf_symbol⟩ "" stOpen).2.2 stFunded
     (by decide) rfl run_fund).1⟩

/-- C8: a successful `updatepersis` requires the authority of the owner
of the current land of the placement, plus the owner of the new land when
moving; it rewrites only the land id, position, orientation and scale of
the targeted record — its primary id and composite key survive — and
leaves every other row and table untouched. -/
theorem updatepersis_auth_frame (auth : Nat → Bool) (persistent_id land_id : Nat)
    (position orientation scale : vector3) (st st' : State) (q : Persistent)
    (hq : st.persistents.find? (fun r => r.id == persistent_id) = some q)
    (h : updatepersis auth persistent_id land_id position orientation scale st = .ok st') :
    (∃ l ∈ st.lands, l.id = q.land_id ∧ auth l.owner = true) ∧
    (land_id ≠ q.land_id → ∃ l ∈ st.lands, l.id = land_id ∧ auth l.owner = true) ∧
    st'.persistents = modify_first (fun r => r.id == persistent_id)
      (update_row land_id position orientation scale) st.persistents ∧
    st'.lands = st.lands ∧ st'.deposits = st.deposits ∧ st'.polys = st.polys ∧
    st'.outbox = st.outbox ∧
    (∃ q', st'.persistents.find? (fun r => r.id == persistent_id) = some q' ∧
      q'.id = q.id ∧ q'.source_and_asset_id = q.source_and_asset_id ∧
      q'.land_id = land_id ∧ q'.position = position ∧ q'.orientation = orientation ∧
      q'.scale = scale) ∧
    (∀ r ∈ st.persistents, r.id ≠ persistent_id → r ∈ st'.persistents) := by
  rw [updatepersis_eq, hq] at h
  simp only [] at h
  split at h
  · exact Except.noConfusion h
  rename_i owner hown
  have hfm := find?_modify_first (fun r => r.id == persistent_id)
    (update_row land_id position orientation scale) (fun a ha => ha) st.persistents
  have hold : ∃ l ∈ st.lands, l.id = q.land_id ∧ auth l.owner = true := by
    obtain ⟨l, hl, hlid, hlo, hla⟩ := require_land_owner_auth_ok hown
    exact ⟨l, hl, hlid, hlo ▸ hla⟩
  have hframe : ∀ st'' : State,
      st''.persistents = modify_first (fun r => r.id == persistent_id)
        (update_row land_id position orientation scale) st.persistents →
      st''.lands = st.lands → st''.deposits = st.deposits → st''.polys = st.polys →
      st''.outbox = st.outbox →
      st''.persistents = modify_first (fun r => r.id == persistent_id)
        (update_row land_id position orientation scale) st.persistents ∧
      st''.lands = st.lands ∧ st''.deposits = st.deposits ∧ st''.polys = st.polys ∧
      st''.outbox = st.outbox ∧
      (∃ q', st''.persistents.find? (fun r => r.id == persistent_id) = some q' ∧
        q'.id = q.id ∧ q'.source_and_asset_id = q.source_and_asset_id ∧
        q'.land_id = land_id ∧ q'.position = position ∧ q'.orientation = orientation ∧
        q'.scale = scale) ∧
      (∀ r ∈ st.persistents, r.id ≠ persistent_id → r ∈ st''.persistents) := by
    intro st'' hps hl hd hpo hob
    refine ⟨hps, hl, hd, hpo, hob, ?_, ?_⟩
    · rw [hps, hfm, hq]
      exact ⟨_, rfl, rfl, rfl, rfl, rfl, rfl, rfl⟩
    · intro r hr hrne
      rw [hps]
      exact mem_modify_first_of_neg hr (by simp [hrne])
  split at h
  · rename_i hne
    split at h
    · exact Except.noConfusion h
    rename_i owner2 hown2
    split at h
    · exact Except.noConfusion h
    obtain rfl := Except.ok.inj h
    obtain ⟨l2, hl2, hl2id, hl2o, hl2a⟩ := require_land_owner_auth_ok hown2
    exact ⟨hold, fun _ => ⟨l2, hl2, hl2id, hl2o ▸ hl2a⟩,
      hframe _ rfl rfl rfl rfl rfl⟩
  · rename_i hne
    split at h
    · exact Except.noConfusion h
    obtain rfl := Except.ok.inj h
    exact ⟨hold, fun hcon => absurd hcon hne, hframe _ rfl rfl rfl rfl rfl⟩

theorem run_update :
    updatepersis allAuth 1 0 posB oriA scaleA stTwoPlace = .ok stUpdated := by
  rw [updatepersis_eq]
  simp [stTwoPlace, stUpdated, stAfterA, landA, placeRec0, placeRec1, placeRec1Upd,
    polyA, posA, posB, oriA, scaleA, require_land_owner_auth,
    assert_vectors_within_bounds, modify_first, allAuth]
  norm_num

theorem find_placeRec1 :
    stTwoPlace.persistents.find? (fun r => r.id == 1) = some placeRec1 := by
  simp [stTwoPlace, placeRec0, placeRec1, List.find?]

theorem updatepersis_auth_frame_witness :
    stUpdated.lands = stTwoPlace.lands ∧ stUpdated.deposits = stTwoPlace.deposits :=
  ⟨(updatepersis_auth_frame allAuth 1 0 posB oriA scaleA stTwoPlace stUpdated placeRec1
      find_placeRec1 run_update).2.2.2.1,
   (updatepersis_auth_frame allAuth 1 0 posB oriA scaleA stTwoPlace stUpdated placeRec1
      find_placeRec1 run_update).2.2.2.2.1⟩

/-- C9: the placement geometry check passes exactly when the position has
x and z strictly inside (0,1) and y equal to 0, every orientation
component lies in [0,360), and every scale component is at least 0.2
(= 1/5); any violation makes both `persistpoly` and `updatepersis` abort
with the corresponding out-of-bounds message before any state change. -/
theorem assert_vectors_within_bounds_spec (position orientation scale : vector3) :
    (assert_vectors_within_bounds position orientation scale = .ok () ↔
      ((position.x > 0 ∧ position.y = 0 ∧ position.z > 0 ∧
        position.x < 1 ∧ position.z < 1) ∧
       (orientation.x ≥ 0 ∧ orientation.x < 360 ∧ orientation.y ≥ 0 ∧
        orientation.y < 360 ∧ orientation.z ≥ 0 ∧ orientation.z < 360) ∧
       (scale.x ≥ 1/5 ∧ scale.y ≥ 1/5 ∧ scale.z ≥ 1/5))) ∧
    (∀ m, assert_vectors_within_bounds position orientation scale = .error m →
      (m = "Asset position is not within land bounds" ∨
       m = "Asset orientation must be within 0 and 360" ∨
       m = "Asset scale must be at least 0.2") ∧
      (∀ auth : Nat → Bool, ∀ land_id : Nat, ∀ poly_id : String, ∀ st : State, ∀ l : Land,
        st.lands.find? (fun a => a.id == land_id) = some l → auth l.owner = true →
        persistpoly auth land_id poly_id position orientation scale st = .error (m, st)) ∧
      (∀ auth : Nat → Bool, ∀ persistent_id land_id : Nat, ∀ st : State,
          ∀ q : Persistent, ∀ l : Land,
        st.persistents.find? (fun r => r.id == persistent_id) = some q →
        st.lands.find? (fun a => a.id == q.land_id) = some l → auth l.owner = true →
        (land_id ≠ q.land_id →
          ∃ l2 ∈ st.lands, st.lands.find? (fun a => a.id == land_id) = some l2 ∧
            auth l2.owner = true) →
        updatepersis auth persistent_id land_id position orientation scale st =
          .error (m, st))) := by
  constructor
  · unfold assert_vectors_within_bounds
    split_ifs with h1 h2 h3
    all_goals first
      | exact ⟨fun _ => ⟨h1, h2, h3⟩, fun _ => by trivial⟩
      | exact iff_of_false id (fun hh => absurd hh.1 h1)
      | exact iff_of_false id (fun hh => absurd hh.2.1 h2)
      | exact iff_of_false id (fun hh => absurd hh.2.2 h3)
  · intro m herr
    refine ⟨?_, ?_, ?_⟩
    · unfold assert_vectors_within_bounds at herr
      split_ifs at herr
      all_goals first
        | exact Except.noConfusion herr
        | exact Or.inl (Except.error.inj herr).symm
        | exact Or.inr (Or.inl (Except.error.inj herr).symm)
        | exact Or.inr (Or.inr (Except.error.inj herr).symm)
    · intro auth land_id poly_id st l hfind hauth
      have hreq : require_land_owner_auth auth land_id st = .ok l.owner := by
        unfold require_land_owner_auth
        simp only [hfind]
        rw [if_neg (not_not_intro hauth)]
      rw [persistpoly_eq, hreq, herr]
    · intro auth persistent_id land_id st q l hq hfind hauth hnew
      have hreq : require_land_owner_auth auth q.land_id st = .ok l.owner := by
        unfold require_land_owner_auth
        simp only [hfind]
        rw [if_neg (not_not_intro hauth)]
      rw [updatepersis_eq, hq]
      simp only []
      rw [hreq]
      by_cases hne : land_id ≠ q.land_id
      · obtain ⟨l2, hl2mem, hfind2, hauth2⟩ := hnew hne
        have hreq2 : require_land_owner_auth auth land_id st = .ok l2.owner := by
          unfold require_land_owner_auth
          simp only [hfind2]
          rw [if_neg (not_not_intro hauth2)]
        rw [if_pos hne, hreq2, herr]
      · rw [if_neg hne, herr]

theorem assert_vectors_within_bounds_spec_witness :
    assert_vectors_within_bounds posA oriA scaleA = .ok () ∧
    persistpoly allAuth 0 "ABCDEFGHIJK" ⟨2, 0, 1/2⟩ oriA scaleA stAfterA =
      .error ("Asset position is not within land bounds", stAfterA) := by
  have herr : assert_vectors_within_bounds ⟨2, 0, 1/2⟩ oriA scaleA =
      .error "Asset position is not within land bounds" := by
    unfold assert_vectors_within_bounds
    norm_num
  refine ⟨(assert_vectors_within_bounds_spec posA oriA scaleA).1.mpr
    (by norm_num [posA, oriA, scaleA]), ?_⟩
  exact ((assert_vectors_within_bounds_spec ⟨2, 0, 1/2⟩ oriA scaleA).2
    "Asset position is not within land bounds" herr).2.1 allAuth 0 "ABCDEFGHIJK"
    stAfterA landA (by simp [stAfterA, landA]) rfl

/-- C6 counterexample: the composite key is not a per-record unique key —
from the empty deployment, registering a parcel and placing the same Poly
asset on it twice yields a reachable state with two distinct placement
records carrying the same composite-key value. -/
theorem composite_key_not_unique :
    Reachable cExample stTwoPlace ∧
    placeRec0 ∈ stTwoPlace.persistents ∧ placeRec1 ∈ stTwoPlace.persistents ∧
    placeRec0.id ≠ placeRec1.id ∧
    placeRec0.source_and_asset_id = placeRec1.source_and_asset_id :=
  ⟨reach_stTwoPlace, by simp [stTwoPlace], by simp [stTwoPlace], by decide, rfl⟩

/-- C6 amended: the 128-bit packing is injective — a composite-key value
determines the source tag and the asset id — so the key identifies one
asset record, while several placement records may legitimately carry the
same key (one per placement of that asset). -/
theorem composite_key_packing_injective (s1 a1 s2 a2 : Nat)
    (h1 : a1 < 2 ^ 64) (h2 : a2 < 2 ^ 64)
    (h : composite_key s1 a1 = composite_key s2 a2) : s1 = s2 ∧ a1 = a2 := by
  unfold composite_key at h
  rw [Nat.mod_eq_of_lt h1, Nat.mod_eq_of_lt h2] at h
  omega

theorem composite_key_packing_injective_witness : (0 : Nat) = 0 ∧ (3 : Nat) = 3 :=
  composite_key_packing_injective 0 3 0 3 (by norm_num) (by norm_num) rfl
